import Mathlib

/-!
Verification development for the `codebase_doctor.py` repository scanner.

The Python source is shallowly embedded: each regex-based extractor is
modelled as an executable character-level matcher with Python `re.findall`
scan semantics (scan left to right, at each position try the pattern; on a
match emit the capture and resume after the match, otherwise advance one
character — all the patterns used by the source consume at least one
character, so a fuel of the input length is exact), dictionaries are
modelled as association lists with Python's overwrite-in-place semantics
or as total functions with a default (for the `defaultdict` counters),
and every fallible operation of the source (file decoding, manifest
parsing, the AI call) is an explicit `Option`/`Except` input.
-/

/-! ## Character classes and scanning primitives -/

/-- Python regex `\s` for the ASCII range: space, tab, newline, carriage
return, vertical tab, form feed. -/
def isRegexSpace (c : Char) : Bool :=
  c = ' ' || c = '\t' || c = '\n' || c = '\r' || c = '\x0b' || c = '\x0c'

/-- Character class `[A-Za-z0-9_.]` of the Python module-name captures. -/
def isPyModChar (c : Char) : Bool :=
  c.isAlphanum || c = '_' || c = '.'

/-- Character class `[A-Za-z0-9_]` of the identifier captures. -/
def isIdentChar (c : Char) : Bool :=
  c.isAlphanum || c = '_'

/-- Match a literal character sequence at the head of the input, returning
the remainder. -/
def matchLit : List Char → List Char → Option (List Char)
  | [], rest => some rest
  | _ :: _, [] => none
  | p :: ps, c :: cs => if c = p then matchLit ps cs else none

/-- Greedy `X+` over a character class: at least one character satisfying
`p`, returning (matched run, remainder).  For the patterns in the source
the character after a greedy run is never itself acceptable to the next
pattern element, so greedy matching without backtracking is exact. -/
def spanPlus (p : Char → Bool) (cs : List Char) : Option (List Char × List Char) :=
  let t := cs.takeWhile p
  if t.isEmpty then none else some (t, cs.dropWhile p)

/-- `re.findall` scan loop: try the matcher at each position; on success
emit the capture and resume after the consumed text, otherwise slide one
character.  Fuel bounds the recursion; every matcher below consumes at
least one character, so fuel = input length never runs out early. -/
def findAllAux (m : List Char → Option (String × List Char)) :
    Nat → List Char → List String
  | 0, _ => []
  | _ + 1, [] => []
  | fuel + 1, c :: cs =>
    match m (c :: cs) with
    | some (cap, rest) => cap :: findAllAux m fuel rest
    | none => findAllAux m fuel cs

/-- `re.findall pattern s` for a single-capture pattern `m`. -/
def findAll (m : List Char → Option (String × List Char)) (s : String) : List String :=
  findAllAux m s.length s.toList

/-- Python `s.lower()` (ASCII; the relevant patterns are ASCII). -/
def lowerStr (s : String) : String :=
  String.mk (s.toList.map Char.toLower)

/-- Python `s[:n]` by characters. -/
def takeStr (s : String) (n : Nat) : String :=
  String.mk (s.toList.take n)

/-- Python `s.endswith(suf)`. -/
def endsWithL (s suf : String) : Bool :=
  suf.toList.isSuffixOf s.toList

/-- Python `s.startswith(pre)`. -/
def startsWithL (s pre : String) : Bool :=
  pre.toList.isPrefixOf s.toList

/-! ## Sampled files and the per-language extractors -/

/-- A sampled file as stored in `file_patterns`: relative path and
(truncated) text content. -/
structure SampledFile where
  path : String
  content : String
deriving DecidableEq, Repr

/-- Pattern `import\s+([A-Za-z0-9_.]+)` (first Python import form). -/
def matchPyImport1 (cs : List Char) : Option (String × List Char) := do
  let r1 ← matchLit ("import".toList) cs
  let (_, r2) ← spanPlus isRegexSpace r1
  let (cap, r3) ← spanPlus isPyModChar r2
  pure (String.mk cap, r3)

/-- Pattern `from\s+([A-Za-z0-9_.]+)\s+import` (second Python import form). -/
def matchPyImport2 (cs : List Char) : Option (String × List Char) := do
  let r1 ← matchLit ("from".toList) cs
  let (_, r2) ← spanPlus isRegexSpace r1
  let (cap, r3) ← spanPlus isPyModChar r2
  let (_, r4) ← spanPlus isRegexSpace r3
  let r5 ← matchLit ("import".toList) r4
  pure (String.mk cap, r5)

/-- Pattern `class\s+([A-Za-z0-9_]+)(?:\([^)]*\))?:`.  The optional base
list group is tried greedily; if the colon does not follow, backtracking
to the group-less branch cannot succeed either (the current character is
an opening parenthesis, not a colon), so the explicit case split below is
exact. -/
def matchPyClass (cs : List Char) : Option (String × List Char) := do
  let r1 ← matchLit ("class".toList) cs
  let (_, r2) ← spanPlus isRegexSpace r1
  let (cap, r3) ← spanPlus isIdentChar r2
  match r3 with
  | '(' :: r4 =>
    match r4.dropWhile (fun c => c != ')') with
    | ')' :: ':' :: r6 => pure (String.mk cap, r6)
    | _ => none
  | ':' :: r4 => pure (String.mk cap, r4)
  | _ => none

/-- Pattern `def\s+([A-Za-z0-9_]+)\s*\(`. -/
def matchPyDef (cs : List Char) : Option (String × List Char) := do
  let r1 ← matchLit ("def".toList) cs
  let (_, r2) ← spanPlus isRegexSpace r1
  let (cap, r3) ← spanPlus isIdentChar r2
  match r3.dropWhile isRegexSpace with
  | '(' :: r5 => pure (String.mk cap, r5)
  | _ => none

/-- Pattern `(?:import|require)\s*\(?['"]([^'"]*)['"]\)?` of
`_extract_js_imports`.  The closing quote may be either quote character,
as in the source's character class. -/
def matchJsImport (cs : List Char) : Option (String × List Char) := do
  let r1 ← (matchLit ("import".toList) cs).orElse (fun _ => matchLit ("require".toList) cs)
  let r2 := r1.dropWhile isRegexSpace
  let r3 := match r2 with
    | '(' :: t => t
    | t => t
  match r3 with
  | q :: r4 =>
    if q = '\'' || q = '"' then
      let cap := r4.takeWhile (fun c => c != '\'' && c != '"')
      match r4.dropWhile (fun c => c != '\'' && c != '"') with
      | _ :: r6 =>
        let r7 := match r6 with
          | ')' :: t => t
          | t => t
        pure (String.mk cap, r7)
      | [] => none
    else none
  | [] => none

/-- Concatenate, over the files and then over the given patterns, all the
findall results — the inner loop of every `_extract_*` function. -/
def extractConcat (ms : List (List Char → Option (String × List Char)))
    (files : List SampledFile) : List String :=
  files.foldl (fun acc f => acc ++ ms.foldl (fun a m => a ++ findAll m f.content) []) []

/-- `_extract_python_imports`: both import forms over every file, then
`list(set(...))`.  Python's set iteration order is unspecified, so the
set is concretised as `List.dedup` (first occurrences kept); every claim
about the result is stated up to the set of elements. -/
def extract_python_imports (files : List SampledFile) : List String :=
  (extractConcat [matchPyImport1, matchPyImport2] files).dedup

/-- `_extract_python_classes`. -/
def extract_python_classes (files : List SampledFile) : List String :=
  (extractConcat [matchPyClass] files).dedup

/-- `_extract_python_functions`. -/
def extract_python_functions (files : List SampledFile) : List String :=
  (extractConcat [matchPyDef] files).dedup

/-- `_extract_js_imports`. -/
def extract_js_imports (files : List SampledFile) : List String :=
  (extractConcat [matchJsImport] files).dedup

/-! ## AI response parsing (`_parse_ai_analysis`) and `ai_analysis` -/

/-- Index of the first occurrence of `needle` in `hay` (needles here are
always nonempty). -/
def firstOccur (needle : List Char) : List Char → Option Nat
  | [] => if needle.isEmpty then some 0 else none
  | c :: cs =>
    if needle.isPrefixOf (c :: cs) then some 0
    else (firstOccur needle cs).map (· + 1)

/-- Position where the non-greedy section body stops: the earliest start
of any stop header, or the end of the text.  The source's lookahead also
admits `$`, which in non-MULTILINE mode can match just before one final
newline; the difference is a single trailing newline on the body and is
erased by the `.strip()` applied below, so end-of-text is the faithful
observable model. -/
def stopIndex (stops : List (List Char)) (cs : List Char) : Nat :=
  stops.foldl
    (fun acc n =>
      match firstOccur n cs with
      | some i => min acc i
      | none => acc)
    cs.length

/-- Python `str.strip()` on the ASCII whitespace the source can produce. -/
def pyStrip (cs : List Char) : List Char :=
  ((cs.dropWhile isRegexSpace).reverse.dropWhile isRegexSpace).reverse

/-- One `re.search(r'# H(.*?)(?=stop1|...|$)', text, re.DOTALL)` of
`_parse_ai_analysis`: find the leftmost header occurrence; the body runs
from just after it to the earliest stop header or the end, then is
stripped. -/
def sectionOf (header : String) (stops : List String) (text : List Char) : Option String :=
  match firstOccur header.toList text with
  | none => none
  | some i =>
    let after := text.drop (i + header.length)
    let j := stopIndex (stops.map String.toList) after
    some (String.mk (pyStrip (after.take j)))

/-- `_parse_ai_analysis`: build the section mapping, inserting each of the
five keys in the source's order exactly when its header was found. -/
def parse_ai_analysis (t : String) : List (String × String) :=
  let l := t.toList
  let ov := sectionOf "# Overview" ["# Patterns", "# Examples", "# Best Practices", "# Recommendations"] l
  let pa := sectionOf "# Patterns" ["# Overview", "# Examples", "# Best Practices", "# Recommendations"] l
  let ex := sectionOf "# Examples" ["# Overview", "# Patterns", "# Best Practices", "# Recommendations"] l
  let bp := sectionOf "# Best Practices" ["# Overview", "# Patterns", "# Examples", "# Recommendations"] l
  let rc := sectionOf "# Recommendations" ["# Overview", "# Patterns", "# Examples", "# Best Practices"] l
  ([("overview", ov), ("patterns", pa), ("examples", ex),
    ("best_practices", bp), ("recommendations", rc)]).filterMap
    (fun kv => kv.2.map (fun s => (kv.1, s)))

/-- The fixed error text of `ai_analysis`'s exception handler. -/
def aiErrorText : String := "Error during AI analysis"

/-- `ai_analysis`, with the AI call (and everything else inside the `try`
block) abstracted as an `Except` input: `.ok text` is a successful call
returning `text`, `.error e` is any raised exception.  On success the
reply is parsed into sections; on failure the source returns its literal
placeholder dictionary, in the source's key order. -/
def ai_analysis (callResult : Except String String) : List (String × String) :=
  match callResult with
  | .ok text => parse_ai_analysis text
  | .error _ =>
    [("overview", aiErrorText), ("patterns", aiErrorText),
     ("recommendations", aiErrorText), ("examples", aiErrorText)]

/-! ## The repository scan (`scan_repo`) -/

/-- One file encountered by the `os.walk` traversal (after the excluded
directories have been pruned): its path relative to the repository root,
its basename (the `file` component handed to `os.path.splitext`), its
size in bytes, the outcome of the 1024-byte binary probe
(`_is_binary_file`), and the outcome of the full content read — `none`
models a `UnicodeDecodeError` on the content read. -/
structure WalkFile where
  relPath : String
  name : String
  size : Nat
  isBinary : Bool
  content : Option String
deriving DecidableEq, Repr

/-- A `FileRecord` as stored in `file_data`. -/
structure FileRecord where
  path : String
  type : String
  size : Nat
deriving DecidableEq, Repr

/-- Index of the last dot in a basename, if any. -/
def lastDotIdx : List Char → Option Nat
  | [] => none
  | c :: cs =>
    match lastDotIdx cs with
    | some i => some (i + 1)
    | none => if c = '.' then some 0 else none

/-- The extension part (dot included) of `os.path.splitext` on a bare
basename: everything from the last dot on, unless every character before
that dot is itself a dot (CPython's leading-dot rule, so ".bashrc" has no
extension). -/
def splitextExt (name : String) : String :=
  let l := name.toList
  match lastDotIdx l with
  | none => ""
  | some i => if (l.take i).any (fun c => c != '.') then String.mk (l.drop i) else ""

/-- `ext.lower()[1:] if ext else "no_extension"` applied to the splitext
result, as in `scan_repo`. -/
def extOf (name : String) : String :=
  let e := splitextExt name
  if e = "" then "no_extension" else String.mk ((lowerStr e).toList.drop 1)

/-- The mutable analyzer state touched by `scan_repo`: `file_data` and the
`defaultdict`s `file_patterns` and `stats`, modelled as total functions
(`defaultdict(list)` / `defaultdict(int)` defaults are `[]` / `0`;
`file_data` is a plain dict, absent keys modelled as `none`). -/
structure ScanState where
  file_data : String → Option FileRecord
  file_patterns : String → List SampledFile
  stats : String → Nat

/-- The state `CodebaseAnalyzer.__init__` sets up. -/
def initState : ScanState :=
  { file_data := fun _ => none
    file_patterns := fun _ => []
    stats := fun _ => 0 }

/-- The default `max_files_per_type` set in `__init__`. -/
def max_files_per_type : Nat := 25

/-- The skip test of `scan_repo`:
`self._is_binary_file(file_path) or os.path.getsize(file_path) > 1000000`. -/
def skipFile (f : WalkFile) : Bool :=
  f.isBinary || f.size > 1000000

/-- The stats key `f"files_by_type_{ext}"`. -/
def statKey (e : String) : String := "files_by_type_" ++ e

/-- `defaultdict(int)` increment `stats[k] += 1`. -/
def bump (s : String → Nat) (k : String) : String → Nat :=
  fun k' => if k' = k then s k + 1 else s k'

/-- The `FileRecord` dict literal stored for an accepted file. -/
def fileRecordOf (f : WalkFile) : FileRecord :=
  { path := f.relPath, type := extOf f.name, size := f.size }

/-- The body of `scan_repo`'s inner loop for one walked file, with the
sample cap a parameter (`self.max_files_per_type`): skip binary/oversized
files; otherwise count the file and store its record, then — if the
extension's sample list is not yet full — try the content read and append
the truncated sample, a `UnicodeDecodeError` leaving the state as already
counted. -/
def scanStep (cap : Nat) (st : ScanState) (f : WalkFile) : ScanState :=
  if skipFile f then st
  else
    let e := extOf f.name
    let st1 : ScanState :=
      { st with
        stats := bump (bump st.stats "total_files") (statKey e)
        file_data := fun p => if p = f.relPath then some (fileRecordOf f) else st.file_data p }
    if (st1.file_patterns e).length < cap then
      match f.content with
      | some c =>
        { st1 with
          file_patterns := fun e' =>
            if e' = e then st1.file_patterns e ++ [⟨f.relPath, takeStr c 100000⟩]
            else st1.file_patterns e' }
      | none => st1
    else st1

/-- `scan_repo` on the walked file list, from the freshly initialized
analyzer state. -/
def scan_repo (files : List WalkFile) : ScanState :=
  files.foldl (scanStep max_files_per_type) initState

/-- The sample entry an accepted file would contribute, when its content
read succeeds. -/
def sampleOf (f : WalkFile) : Option SampledFile :=
  f.content.map (fun c => ⟨f.relPath, takeStr c 100000⟩)

/-- The walk-ordered list of sample entries of extension `e` that pass
the binary/size filters and whose content read succeeds — the candidates
from which `scan_repo` retains a prefix. -/
def sampleCandidates (e : String) (files : List WalkFile) : List SampledFile :=
  files.filterMap
    (fun f => if skipFile f = false ∧ extOf f.name = e then sampleOf f else none)

/-! ## Entry-point identification (`_identify_entry_points`)

The path regexes are all case-insensitive (`re.IGNORECASE`) searches
anchored at the end by `$` or built from literal alternatives, so they
reduce to lowercase suffix / infix tests.  `.` in these patterns matches
any character except a newline; paths are produced by `os.path.join` and
are modelled as newline-free, under which `.+$` from a given position
succeeds exactly when at least one character remains. -/

/-- Case-insensitive suffix test against a list of lowercase literal
alternatives, i.e. `re.search(r"(lit1|lit2|...)$", path, re.IGNORECASE)`. -/
def suffixAny (sufs : List String) (p : String) : Bool :=
  sufs.any (fun s => endsWithL (lowerStr p) s)

/-- `needle` occurs with at least `k` characters after it. -/
def containsWithAfter (needle : List Char) (k : Nat) : List Char → Bool
  | [] => false
  | c :: cs =>
    (needle.isPrefixOf (c :: cs) && decide (needle.length + k ≤ (c :: cs).length))
    || containsWithAfter needle k cs

/-- `re.search(r"(app\.py|server\.py|main\.py|index\.py|application\.py)$|...")`:
the four backend pattern regexes. -/
def backendMatch (p : String) : Bool :=
  suffixAny ["app.py", "server.py", "main.py", "index.py", "application.py"] p
  || suffixAny ["app.js", "server.js", "index.js", "main.js"] p
  || suffixAny ["app.ts", "server.ts", "index.ts", "main.ts"] p
  || suffixAny ["program.cs", "startup.cs"] p

/-- The three frontend pattern regexes (`index\.jsx?` etc. expanded into
their two literal alternatives each). -/
def frontendMatch (p : String) : Bool :=
  suffixAny ["index.html"] p
  || suffixAny ["index.js", "index.jsx", "app.js", "app.jsx", "main.js", "main.jsx"] p
  || suffixAny ["index.ts", "index.tsx", "app.ts", "app.tsx", "main.ts", "main.tsx"] p

/-- The two CLI pattern regexes: `(cli\.py|__main__\.py|bin/.+)$` and
`(cli\.js|bin/.+\.js)$`. -/
def cliMatch (p : String) : Bool :=
  (suffixAny ["cli.py", "__main__.py"] p || containsWithAfter ("bin/".toList) 1 (lowerStr p).toList)
  || (suffixAny ["cli.js"] p
      || (containsWithAfter ("bin/".toList) 4 (lowerStr p).toList && endsWithL (lowerStr p) ".js"))

/-- `.config.` occurring at a position ≥ 1 with at least one character
after it: the `.+\.config\..+` alternative. -/
def interiorConfig (l : List Char) : Bool :=
  match l with
  | [] => false
  | _ :: cs => containsWithAfter (".config.".toList) 1 cs

/-- The four config pattern regexes:
`(config\..+|.+\.config\..+)$`, the literal manifest names,
`(Dockerfile|docker-compose\.yml)$` and `(.+\.yaml|.+\.yml)$`. -/
def configMatch (p : String) : Bool :=
  (containsWithAfter ("config.".toList) 1 (lowerStr p).toList || interiorConfig (lowerStr p).toList)
  || suffixAny ["package.json", "tsconfig.json", "poetry.toml", "pyproject.toml"] p
  || suffixAny ["dockerfile", "docker-compose.yml"] p
  || ((endsWithL (lowerStr p) ".yaml" && decide (5 < p.length))
      || (endsWithL (lowerStr p) ".yml" && decide (4 < p.length)))

/-- The four category lists built up by `_identify_entry_points`'s loop. -/
structure EntryPoints where
  backend : List String
  frontend : List String
  cli : List String
  config : List String
deriving Repr

/-- One iteration of the path loop: append the path to every category one
of whose patterns matches (the `break` only stops further patterns of the
same category, so membership is a plain disjunction). -/
def entryStep (ep : EntryPoints) (p : String) : EntryPoints :=
  { backend := if backendMatch p then ep.backend ++ [p] else ep.backend
    frontend := if frontendMatch p then ep.frontend ++ [p] else ep.frontend
    cli := if cliMatch p then ep.cli ++ [p] else ep.cli
    config := if configMatch p then ep.config ++ [p] else ep.config }

/-- `_identify_entry_points` over the `file_data` key list: accumulate the
four categories, then drop the empty ones
(`{k: v for k, v in entry_points.items() if v}`). -/
def identify_entry_points (paths : List String) : List (String × List String) :=
  let ep := paths.foldl entryStep ⟨[], [], [], []⟩
  ([("backend", ep.backend), ("frontend", ep.frontend),
    ("cli", ep.cli), ("config", ep.config)]).filter (fun kv => !kv.2.isEmpty)

/-! ## Dependency identification (`_identify_dependencies`) -/

/-- Python dict assignment `d[k] = v`: overwrite in place, else append. -/
def dictSet (k : String) (v : Nat) : List (String × Nat) → List (String × Nat)
  | [] => [(k, v)]
  | (k', v') :: rest => if k' = k then (k, v) :: rest else (k', v') :: dictSet k v rest

/-- Python `d.get(k, 0)`. -/
def dictGetD (d : List (String × Nat)) (k : String) : Nat :=
  match d.find? (fun kv => kv.1 == k) with
  | some kv => kv.2
  | none => 0

/-- Membership lookup, `d.get(k)` as an `Option`. -/
def dictGet (d : List (String × Nat)) (k : String) : Option Nat :=
  (d.find? (fun kv => kv.1 == k)).map (fun kv => kv.2)

/-- `d[k] = d.get(k, 0) + 1`. -/
def dictBump (d : List (String × Nat)) (k : String) : List (String × Nat) :=
  dictSet k (dictGetD d k + 1) d

/-- The decoded `package.json` of interest to the source: its optional
`dependencies` and `devDependencies` maps (absent map = `[]`). -/
structure PackageJson where
  dependencies : List (String × String)
  devDependencies : List (String × String)
deriving Repr

/-- `dict.update` for the string-valued manifest maps. -/
def strDictSet (k v : String) : List (String × String) → List (String × String)
  | [] => [(k, v)]
  | (k', v') :: rest => if k' = k then (k, v) :: rest else (k', v') :: strDictSet k v rest

/-- `deps.update(package_data[...])` over a list of pairs. -/
def strDictUpdate (d : List (String × String)) (kvs : List (String × String)) :
    List (String × String) :=
  kvs.foldl (fun acc kv => strDictSet kv.1 kv.2 acc) d

/-- The manifest files `_identify_dependencies` looks at, each `none` when
the file is absent (or, for `package.json` and the per-file `try` blocks,
when opening/parsing it raised — the caught-exception branch contributes
nothing, like absence). -/
structure RepoManifests where
  package_json : Option PackageJson
  requirements_txt : Option String
  pipfile : Option String
  pyproject_toml : Option String
  setup_py : Option String
deriving Repr

/-- Python `line.split(sep)[0]`: the text before the first occurrence of
`sep`. -/
def headSeg (sep s : String) : String :=
  match firstOccur sep.toList s.toList with
  | some i => String.mk (s.toList.take i)
  | none => s

/-- Python `str.strip()` on a string. -/
def pyStripS (s : String) : String :=
  String.mk (pyStrip s.toList)

/-- Split a character list at every occurrence of `sep` (Python
`s.split(sep)` for a one-character separator; an empty input gives one
empty field, a trailing separator a trailing empty field). -/
def splitOnCharL (sep : Char) : List Char → List (List Char)
  | [] => [[]]
  | c :: cs =>
    if c = sep then [] :: splitOnCharL sep cs
    else
      match splitOnCharL sep cs with
      | h :: t => (c :: h) :: t
      | [] => [[c]]

/-- Python `content.split("\n")`. -/
def splitLines (s : String) : List String :=
  (splitOnCharL '\n' s.toList).map String.mk

/-- The `requirements.txt` loop: every line whose strip is nonempty and
which does not start with `#` contributes
`line.split("==")[0].split(">=")[0].strip()` with `+= 1`. -/
def requirementsLines (py : List (String × Nat)) (content : String) : List (String × Nat) :=
  (splitLines content).foldl
    (fun acc line =>
      if pyStripS line ≠ "" ∧ ¬ startsWithL line "#" then
        dictBump acc (pyStripS (headSeg ">=" (headSeg "==" line)))
      else acc)
    py

/-- One iteration of the loop over the candidate Python requirement
files: an absent (or unreadable) file is skipped, a present one is read,
and only the branch `req_file == "requirements.txt"` does anything with
the content. -/
def pythonManifestStep (py : List (String × Nat)) (req : String × Option String) :
    List (String × Nat) :=
  match req.2 with
  | none => py
  | some content =>
    if req.1 = "requirements.txt" then requirementsLines py content else py

/-- The Python-manifest phase over the source's fixed candidate list
`["requirements.txt", "Pipfile", "pyproject.toml", "setup.py"]`. -/
def pythonManifestSeed (m : RepoManifests) : List (String × Nat) :=
  ([("requirements.txt", m.requirements_txt), ("Pipfile", m.pipfile),
    ("pyproject.toml", m.pyproject_toml), ("setup.py", m.setup_py)]).foldl
    pythonManifestStep []

/-- The JavaScript-manifest phase: merge `dependencies` then
`devDependencies` (last wins) and seed every key at count 1. -/
def jsManifestSeed (m : RepoManifests) : List (String × Nat) :=
  match m.package_json with
  | none => []
  | some pj =>
    let deps := strDictUpdate (strDictUpdate [] pj.dependencies) pj.devDependencies
    deps.foldl (fun acc kv => dictSet kv.1 1 acc) []

/-- The import-derived tally over one `(ext, files)` item of
`file_patterns.items()`: JS/TS files add one count per distinct non-relative
import's first path segment; Python files add one count per distinct
import's first dot segment. -/
def depTallyStep (acc : List (String × Nat) × List (String × Nat))
    (entry : String × List SampledFile) : List (String × Nat) × List (String × Nat) :=
  if entry.1 = "js" ∨ entry.1 = "jsx" ∨ entry.1 = "ts" ∨ entry.1 = "tsx" then
    (entry.2.foldl
      (fun js file =>
        (extract_js_imports [file]).foldl
          (fun js2 imp =>
            if ¬ startsWithL imp "." ∧ ¬ startsWithL imp "/" then
              dictBump js2 (headSeg "/" imp)
            else js2)
          js)
      acc.1, acc.2)
  else if entry.1 = "py" then
    (acc.1,
     entry.2.foldl
       (fun py file =>
         (extract_python_imports [file]).foldl
           (fun py2 imp => dictBump py2 (headSeg "." imp))
           py)
       acc.2)
  else acc

/-- `_identify_dependencies`: manifest seeding for JavaScript and Python,
then the import-derived tally over the sampled files (given as the
`file_patterns.items()` list), then the dict
`{"javascript": ..., "python": ..., "java": {}, "go": {}}` with empty
ecosystems dropped.  The `java` and `go` tables are never written. -/
def identify_dependencies (m : RepoManifests)
    (filePatterns : List (String × List SampledFile)) :
    List (String × List (String × Nat)) :=
  let js0 := jsManifestSeed m
  let py0 := pythonManifestSeed m
  let tally := filePatterns.foldl depTallyStep (js0, py0)
  ([("javascript", tally.1), ("python", tally.2),
    ("java", ([] : List (String × Nat))), ("go", ([] : List (String × Nat)))]).filter
    (fun kv => !kv.2.isEmpty)

/-! ## Concrete scenario inputs -/

/-- `a.py` of the two-file scenario. -/
def c1FileA : SampledFile := ⟨"a.py", "import os\nclass Foo:\n    def bar(self): pass"⟩

/-- `b.py` of the two-file scenario. -/
def c1FileB : SampledFile := ⟨"b.py", "from collections import defaultdict"⟩

/-- The manifests of the react scenario: a `package.json` declaring
`react` and nothing else. -/
def c8Manifests : RepoManifests :=
  ⟨some ⟨[("react", "^18.0.0")], []⟩, none, none, none, none⟩

/-- The sampled files of the react scenario: one TS file importing
`react-dom`. -/
def c8Patterns : List (String × List SampledFile) :=
  [("ts", [⟨"src/a.ts", "import \"react-dom\""⟩])]

/-- The ecosystem table of a dependency result, `result.get(k, {})`. -/
def ecosystemTable (d : List (String × List (String × Nat))) (k : String) :
    List (String × Nat) :=
  ((d.find? (fun kv => kv.1 == k)).map (fun kv => kv.2)).getD []

/-! ## C1 -/

/-- C1 counterexample: on the two-file scenario the Python import
extractor does NOT return exactly the set `{"os", "collections"}` — the
pattern `import\s+([A-Za-z0-9_.]+)` also fires inside
`from collections import defaultdict` and captures `defaultdict`. -/
theorem c1_counterexample :
    (extract_python_imports [c1FileA, c1FileB]).toFinset ≠
      ({"os", "collections"} : Finset String) := by
  decide

/-- C1 (amended): on the two-file scenario the extractors yield the
imports set `{"os", "defaultdict", "collections"}` (the spurious
`defaultdict` capture included), the classes set `{"Foo"}` and the
functions set `{"bar"}`. -/
theorem c1_amended_extraction :
    (extract_python_imports [c1FileA, c1FileB]).toFinset =
      ({"os", "defaultdict", "collections"} : Finset String) ∧
    (extract_python_classes [c1FileA, c1FileB]).toFinset = ({"Foo"} : Finset String) ∧
    (extract_python_functions [c1FileA, c1FileB]).toFinset = ({"bar"} : Finset String) := by
  refine ⟨by decide, by decide, by decide⟩

/-! ## C2 -/

/-- C2 counterexample: the placeholder mapping returned when the AI call
raises is missing the `best_practices` key, so not every one of the five
narrative section keys is present. -/
theorem c2_counterexample :
    "best_practices" ∉ (ai_analysis (Except.error "boom")).map Prod.fst := by
  decide

/-- C2 (amended): whenever the AI call raises, `ai_analysis` catches it
and returns the literal placeholder mapping with exactly the four keys
`overview`, `patterns`, `recommendations`, `examples`, each set to the
error string (`best_practices` is absent); being a total function of the
call outcome, nothing propagates past this boundary. -/
theorem c2_error_placeholder (e : String) :
    ai_analysis (Except.error e) =
      [("overview", aiErrorText), ("patterns", aiErrorText),
       ("recommendations", aiErrorText), ("examples", aiErrorText)] := rfl

/-! ## C8 -/

/-- C8: with a `package.json` declaring react and one sampled TS file
importing `react-dom`, the JavaScript dependency table contains `react`
with count exactly 1 and `react-dom` with count at least 1,
simultaneously. -/
theorem c8_react_dependencies :
    dictGet (ecosystemTable (identify_dependencies c8Manifests c8Patterns) "javascript")
        "react" = some 1 ∧
    1 ≤ (dictGet (ecosystemTable (identify_dependencies c8Manifests c8Patterns) "javascript")
        "react-dom").getD 0 := by
  refine ⟨by decide, by decide⟩

/-! ## C3 -/

/-- Keys of the optionally-inserted association list come from the
underlying key list. -/
theorem filterMap_keys_sub (L : List (String × Option String)) :
    ((L.filterMap (fun kv => kv.2.map (fun s => (kv.1, s)))).map Prod.fst) ⊆
      L.map Prod.fst := by
  intro a ha
  obtain ⟨x, hx, rfl⟩ := List.mem_map.mp ha
  obtain ⟨kv, hkv, hf⟩ := List.mem_filterMap.mp hx
  cases hov : kv.2 with
  | none => rw [hov] at hf; simp at hf
  | some s =>
    rw [hov] at hf
    simp only [Option.map_some'] at hf
    cases hf
    exact List.mem_map.mpr ⟨kv, hkv, rfl⟩

/-- C3: parsing any AI reply is total (the parser is a function) and
returns a mapping whose key set is a subset of the five canonical section
keys — between 0 and 5 entries, whatever the input, including the empty
string and headers in non-canonical order. -/
theorem c3_parse_total_keys (t : String) :
    ((parse_ai_analysis t).map Prod.fst) ⊆
      ["overview", "patterns", "examples", "best_practices", "recommendations"] ∧
    (parse_ai_analysis t).length ≤ 5 := by
  constructor
  · have h := filterMap_keys_sub
      [("overview", sectionOf "# Overview" ["# Patterns", "# Examples", "# Best Practices", "# Recommendations"] t.toList),
       ("patterns", sectionOf "# Patterns" ["# Overview", "# Examples", "# Best Practices", "# Recommendations"] t.toList),
       ("examples", sectionOf "# Examples" ["# Overview", "# Patterns", "# Best Practices", "# Recommendations"] t.toList),
       ("best_practices", sectionOf "# Best Practices" ["# Overview", "# Patterns", "# Examples", "# Recommendations"] t.toList),
       ("recommendations", sectionOf "# Recommendations" ["# Overview", "# Patterns", "# Examples", "# Best Practices"] t.toList)]
    simpa [parse_ai_analysis] using h
  · have h := List.length_filterMap_le
      (fun (kv : String × Option String) => kv.2.map (fun s => (kv.1, s)))
      [("overview", sectionOf "# Overview" ["# Patterns", "# Examples", "# Best Practices", "# Recommendations"] t.toList),
       ("patterns", sectionOf "# Patterns" ["# Overview", "# Examples", "# Best Practices", "# Recommendations"] t.toList),
       ("examples", sectionOf "# Examples" ["# Overview", "# Patterns", "# Best Practices", "# Recommendations"] t.toList),
       ("best_practices", sectionOf "# Best Practices" ["# Overview", "# Patterns", "# Examples", "# Recommendations"] t.toList),
       ("recommendations", sectionOf "# Recommendations" ["# Overview", "# Patterns", "# Examples", "# Best Practices"] t.toList)]
    simpa [parse_ai_analysis] using h

/-- C3 witness at a concrete reply with headers out of canonical order. -/
theorem c3_parse_total_keys_witness :
    ((parse_ai_analysis "# Recommendations\nR\n# Overview\nO").map Prod.fst) ⊆
      ["overview", "patterns", "examples", "best_practices", "recommendations"] ∧
    (parse_ai_analysis "# Recommendations\nR\n# Overview\nO").length ≤ 5 :=
  c3_parse_total_keys "# Recommendations\nR\n# Overview\nO"

/-! ## Scan lemmas -/

/-- A binary or oversized file leaves the scan state untouched. -/
theorem scanStep_skip (cap : Nat) (st : ScanState) (f : WalkFile)
    (h : skipFile f = true) : scanStep cap st f = st := by
  simp [scanStep, h]

/-- A file strictly over 1,000,000 bytes is skipped outright. -/
theorem scanStep_oversized (cap : Nat) (st : ScanState) (f : WalkFile)
    (h : 1000000 < f.size) : scanStep cap st f = st := by
  apply scanStep_skip
  simp [skipFile]
  omega

/-- An accepted file bumps exactly the two counters, whatever the
sampling outcome. -/
theorem scanStep_stats (cap : Nat) (st : ScanState) (f : WalkFile)
    (h : skipFile f = false) :
    (scanStep cap st f).stats =
      bump (bump st.stats "total_files") (statKey (extOf f.name)) := by
  simp only [scanStep, h, Bool.false_eq_true, if_false]
  split
  · cases f.content <;> rfl
  · rfl

/-- An accepted file stores exactly its record, whatever the sampling
outcome. -/
theorem scanStep_file_data (cap : Nat) (st : ScanState) (f : WalkFile)
    (h : skipFile f = false) :
    (scanStep cap st f).file_data =
      fun p => if p = f.relPath then some (fileRecordOf f) else st.file_data p := by
  simp only [scanStep, h, Bool.false_eq_true, if_false]
  split
  · cases f.content <;> rfl
  · rfl

/-- The sample list of extension `e` after one accepted file, read off
the branches of `scanStep`. -/
theorem scanStep_patterns_apply (cap : Nat) (st : ScanState) (f : WalkFile)
    (h : skipFile f = false) (e : String) :
    (scanStep cap st f).file_patterns e =
      if (st.file_patterns (extOf f.name)).length < cap then
        match f.content with
        | some c =>
          if e = extOf f.name then st.file_patterns (extOf f.name) ++ [⟨f.relPath, takeStr c 100000⟩]
          else st.file_patterns e
        | none => st.file_patterns e
      else st.file_patterns e := by
  simp only [scanStep, h, Bool.false_eq_true, if_false]
  split
  · cases f.content <;> rfl
  · rfl

/-- The central sampling invariant: folding the scan over any file list
appends to each extension's sample list exactly the next candidates, up
to the remaining room under the cap. -/
theorem foldl_patterns (cap : Nat) (fs : List WalkFile) (st : ScanState) (e : String) :
    (List.foldl (scanStep cap) st fs).file_patterns e
      = st.file_patterns e
        ++ (sampleCandidates e fs).take (cap - (st.file_patterns e).length) := by
  induction fs generalizing st with
  | nil => simp [sampleCandidates]
  | cons f fs ih =>
    rw [List.foldl_cons, ih]
    by_cases hskip : skipFile f = true
    · rw [scanStep_skip cap st f hskip]
      have hcand : sampleCandidates e (f :: fs) = sampleCandidates e fs := by
        simp [sampleCandidates, List.filterMap_cons, hskip]
      rw [hcand]
    · have h : skipFile f = false := by simpa using hskip
      by_cases he : extOf f.name = e
      · subst he
        cases hc : f.content with
        | none =>
          have hp : (scanStep cap st f).file_patterns (extOf f.name)
              = st.file_patterns (extOf f.name) := by
            rw [scanStep_patterns_apply cap st f h, hc]
            split <;> rfl
          have hcand : sampleCandidates (extOf f.name) (f :: fs)
              = sampleCandidates (extOf f.name) fs := by
            simp [sampleCandidates, List.filterMap_cons, h, sampleOf, hc]
          rw [hp, hcand]
        | some c =>
          have hcand : sampleCandidates (extOf f.name) (f :: fs)
              = ⟨f.relPath, takeStr c 100000⟩ :: sampleCandidates (extOf f.name) fs := by
            simp [sampleCandidates, List.filterMap_cons, h, sampleOf, hc]
          rw [hcand]
          by_cases hlt : (st.file_patterns (extOf f.name)).length < cap
          · have hp : (scanStep cap st f).file_patterns (extOf f.name)
                = st.file_patterns (extOf f.name) ++ [⟨f.relPath, takeStr c 100000⟩] := by
              rw [scanStep_patterns_apply cap st f h, hc]
              simp [hlt]
            rw [hp]
            obtain ⟨k, hk⟩ : ∃ k, cap - (st.file_patterns (extOf f.name)).length = k + 1 :=
              ⟨cap - (st.file_patterns (extOf f.name)).length - 1, by omega⟩
            rw [hk, List.take_succ_cons]
            have hk2 : cap - (st.file_patterns (extOf f.name) ++
                [(⟨f.relPath, takeStr c 100000⟩ : SampledFile)]).length = k := by
              simp only [List.length_append, List.length_singleton]
              omega
            rw [hk2, List.append_assoc]
            rfl
          · have hp : (scanStep cap st f).file_patterns (extOf f.name)
                = st.file_patterns (extOf f.name) := by
              rw [scanStep_patterns_apply cap st f h, hc]
              simp [hlt]
            rw [hp]
            have h0 : cap - (st.file_patterns (extOf f.name)).length = 0 := by omega
            simp [h0]
      · have hp : (scanStep cap st f).file_patterns e = st.file_patterns e := by
          rw [scanStep_patterns_apply cap st f h]
          have hne : ¬ e = extOf f.name := fun hh => he hh.symm
          split
          · cases f.content with
            | none => rfl
            | some c => simp [hne]
          · rfl
        have hcand : sampleCandidates e (f :: fs) = sampleCandidates e fs := by
          simp [sampleCandidates, List.filterMap_cons, h, he]
        rw [hp, hcand]

/-- The record an accepted file writes at path `p`, `none` if it is
skipped or has another path. -/
def recordWrite (f : WalkFile) (p : String) : Option FileRecord :=
  if skipFile f = false ∧ f.relPath = p then some (fileRecordOf f) else none

/-- Last-write accumulator for `file_data` at one path. -/
def lastWriteFrom (p : String) : Option FileRecord → List WalkFile → Option FileRecord
  | a, [] => a
  | a, f :: fs =>
    lastWriteFrom p
      (match recordWrite f p with
       | some r => some r
       | none => a) fs

/-- `file_data` after a fold is the last write over the file list, on top
of the starting entry. -/
theorem foldl_file_data (cap : Nat) (fs : List WalkFile) (st : ScanState) (p : String) :
    (List.foldl (scanStep cap) st fs).file_data p
      = lastWriteFrom p (st.file_data p) fs := by
  induction fs generalizing st with
  | nil => rfl
  | cons f fs ih =>
    rw [List.foldl_cons, ih, lastWriteFrom]
    by_cases hskip : skipFile f = true
    · rw [scanStep_skip cap st f hskip]
      have : recordWrite f p = none := by simp [recordWrite, hskip]
      rw [this]
    · have h : skipFile f = false := by simpa using hskip
      rw [scanStep_file_data cap st f h]
      by_cases hp : p = f.relPath
      · have : recordWrite f p = some (fileRecordOf f) := by
          simp [recordWrite, h, hp.symm]
        rw [this]
        simp [hp]
      · have : recordWrite f p = none := by
          simp [recordWrite, h]
          exact fun hh => hp hh.symm
        rw [this]
        simp [hp]

/-- The starting entry only survives when no file of the list writes the
path. -/
theorem lastWriteFrom_override (p : String) (a : Option FileRecord) (fs : List WalkFile) :
    lastWriteFrom p a fs =
      match lastWriteFrom p none fs with
      | some r => some r
      | none => a := by
  induction fs generalizing a with
  | nil => rfl
  | cons f fs ih =>
    rw [lastWriteFrom, lastWriteFrom]
    cases hw : recordWrite f p with
    | some r =>
      rw [ih]
      cases lastWriteFrom p none fs <;> rfl
    | none =>
      rw [ih]

/-- The counter increments of one step do not depend on the running
state. -/
theorem scanStep_stats_add (cap : Nat) (st : ScanState) (f : WalkFile) (k : String) :
    (scanStep cap st f).stats k = st.stats k + (scanStep cap initState f).stats k := by
  by_cases hskip : skipFile f = true
  · rw [scanStep_skip cap st f hskip, scanStep_skip cap initState f hskip]
    simp [initState]
  · have h : skipFile f = false := by simpa using hskip
    rw [scanStep_stats cap st f h, scanStep_stats cap initState f h]
    simp only [bump, initState]
    split_ifs <;> simp_all

/-- The counters a fold adds do not depend on the starting state. -/
theorem foldl_stats_add (cap : Nat) (fs : List WalkFile) (st : ScanState) (k : String) :
    (List.foldl (scanStep cap) st fs).stats k
      = st.stats k + (List.foldl (scanStep cap) initState fs).stats k := by
  induction fs generalizing st with
  | nil => simp [initState]
  | cons f fs ih =>
    rw [List.foldl_cons, List.foldl_cons, ih, ih (scanStep cap initState f)]
    rw [scanStep_stats_add cap st f k]
    omega

/-- Paths written by no file of the list stay absent from `file_data`. -/
theorem foldl_file_data_none (cap : Nat) (fs : List WalkFile) (p : String)
    (hall : ∀ g ∈ fs, g.relPath ≠ p) :
    (List.foldl (scanStep cap) initState fs).file_data p = none := by
  rw [foldl_file_data]
  have h0 : initState.file_data p = none := rfl
  rw [h0]
  clear h0
  induction fs with
  | nil => rfl
  | cons f fs ih =>
    rw [lastWriteFrom]
    have hw : recordWrite f p = none := by
      simp [recordWrite]
      intro _
      exact fun hh => hall f (by simp) hh
    rw [hw]
    exact ih (fun g hg => hall g (by simp [hg]))

/-! ## C4 -/

/-- C4: a file strictly over 1,000,000 bytes is recorded nowhere by the
scan — its presence in the walk changes nothing (so total and
per-extension counters are not incremented), its path has no `file_data`
entry (given no other walked file shares the path), and no retained
sample carries its path. -/
theorem c4_oversized_skipped (pre post : List WalkFile) (f : WalkFile)
    (hsize : 1000000 < f.size)
    (hall : ∀ g, g ∈ pre ++ post → g.relPath ≠ f.relPath) :
    scan_repo (pre ++ f :: post) = scan_repo (pre ++ post) ∧
    (scan_repo (pre ++ f :: post)).file_data f.relPath = none ∧
    (∀ e s, s ∈ (scan_repo (pre ++ f :: post)).file_patterns e → s.path ≠ f.relPath) := by
  have heq : scan_repo (pre ++ f :: post) = scan_repo (pre ++ post) := by
    unfold scan_repo
    rw [List.foldl_append, List.foldl_append, List.foldl_cons,
        scanStep_oversized _ _ f hsize]
  refine ⟨heq, ?_, ?_⟩
  · rw [heq]
    exact foldl_file_data_none _ _ _ hall
  · intro e s hs
    rw [heq] at hs
    unfold scan_repo at hs
    rw [foldl_patterns] at hs
    simp only [initState, List.nil_append, List.length_nil, Nat.sub_zero] at hs
    have hs2 := List.mem_of_mem_take hs
    unfold sampleCandidates at hs2
    obtain ⟨g, hg, hcond⟩ := List.mem_filterMap.mp hs2
    by_cases hc : skipFile g = false ∧ extOf g.name = e
    · rw [if_pos hc] at hcond
      obtain ⟨c, hgc, hsample⟩ := Option.map_eq_some'.mp hcond
      have : s.path = g.relPath := by rw [← hsample]
      rw [this]
      exact hall g hg
    · rw [if_neg hc] at hcond
      exact absurd hcond (by simp)

/-- The oversized file of the C4 witness. -/
def c4BigFile : WalkFile := ⟨"big.bin", "big.bin", 1000001, false, some ""⟩

/-- C4 witness at a one-file repository holding only the oversized file. -/
theorem c4_oversized_skipped_witness :
    1000000 < c4BigFile.size ∧
    (scan_repo ([] ++ c4BigFile :: []) = scan_repo ([] ++ []) ∧
     (scan_repo ([] ++ c4BigFile :: [])).file_data c4BigFile.relPath = none ∧
     (∀ e s, s ∈ (scan_repo ([] ++ c4BigFile :: [])).file_patterns e →
        s.path ≠ c4BigFile.relPath)) :=
  ⟨by decide, c4_oversized_skipped [] [] c4BigFile (by decide) (by simp)⟩

/-! ## C5 -/

/-- The walked file of the C5 counterexample. -/
def c5File : WalkFile := ⟨"a.py", "a.py", 10, false, some "import os"⟩

/-- C5 counterexample: calling `scan_repo` a second time on the analyzer
state left by the first run does NOT reproduce the per-extension counts —
`scan_repo` never resets `stats`, so the `py` counter of a one-file
repository reads 2 after the second run against 1 after the first. -/
theorem c5_counterexample :
    (List.foldl (scanStep max_files_per_type) (scan_repo [c5File]) [c5File]).stats
        (statKey "py")
      ≠ (scan_repo [c5File]).stats (statKey "py") := by
  decide

/-- C5 (amended): re-running the scan over an unchanged walk leaves
`file_data` identical (so the FileRecord key set is identical to the
first run's), while every counter — total and per-extension alike — is
doubled rather than identical; identical counts hold only when each run
starts from the freshly initialized analyzer state, where they follow
from the scan being a function of the walk. -/
theorem c5_rerun_behavior (fs : List WalkFile) :
    (List.foldl (scanStep max_files_per_type) (scan_repo fs) fs).file_data
      = (scan_repo fs).file_data ∧
    (∀ k, (List.foldl (scanStep max_files_per_type) (scan_repo fs) fs).stats k
      = 2 * (scan_repo fs).stats k) := by
  constructor
  · funext p
    rw [foldl_file_data, lastWriteFrom_override]
    have h1 : (scan_repo fs).file_data p = lastWriteFrom p none fs := by
      unfold scan_repo
      rw [foldl_file_data]
      rfl
    rw [h1]
    cases lastWriteFrom p none fs <;> rfl
  · intro k
    rw [foldl_stats_add]
    have h1 : (scan_repo fs).stats k
        = (List.foldl (scanStep max_files_per_type) initState fs).stats k := rfl
    omega

/-! ## C6 -/

/-- C6: after any scan the retained sample list of every extension has at
most `max_files_per_type` (25) entries, and is exactly the first
eligible files of that extension in walk order — the prefix of the
candidate list up to the cap, not a random sample. -/
theorem c6_sample_cap_first (fs : List WalkFile) (e : String) :
    ((scan_repo fs).file_patterns e).length ≤ max_files_per_type ∧
    (scan_repo fs).file_patterns e = (sampleCandidates e fs).take max_files_per_type := by
  have h : (scan_repo fs).file_patterns e
      = (sampleCandidates e fs).take max_files_per_type := by
    unfold scan_repo
    rw [foldl_patterns]
    simp [initState]
  exact ⟨h ▸ List.length_take_le _ _, h⟩

/-! ## C7 -/

/-- C7: every category present in the entry-point result maps to a
non-empty path list — categories with zero matches are filtered out of
the returned mapping. -/
theorem c7_no_empty_category (paths : List String) (k : String) (v : List String)
    (h : (k, v) ∈ identify_entry_points paths) : v ≠ [] := by
  unfold identify_entry_points at h
  have h2 := List.of_mem_filter h
  simp only [Bool.not_eq_true'] at h2
  intro hv
  rw [hv] at h2
  simp at h2

/-- C7 witness at the one-file repository `["main.py"]`, whose result is
the single backend category. -/
theorem c7_no_empty_category_witness :
    (("backend", ["main.py"]) ∈ identify_entry_points ["main.py"]) ∧
    (["main.py"] : List String) ≠ [] :=
  ⟨by decide, c7_no_empty_category ["main.py"] "backend" ["main.py"] (by decide)⟩

/-! ## C9 -/

/-- C9: when the content read of a file that passed the binary probe and
the size ceiling fails to decode, the step excludes the file from
sampling only — the resulting state carries the very `file_data` entry
and the very counter increments set before the sampling attempt, and
`file_patterns` is exactly the previous one. -/
theorem c9_decode_fail_frame (cap : Nat) (st : ScanState) (f : WalkFile)
    (hb : f.isBinary = false) (hs : f.size ≤ 1000000) (hc : f.content = none) :
    scanStep cap st f =
      { st with
        stats := bump (bump st.stats "total_files") (statKey (extOf f.name))
        file_data := fun p => if p = f.relPath then some (fileRecordOf f)
                              else st.file_data p } := by
  have h : skipFile f = false := by
    simp [skipFile, hb]
    omega
  simp only [scanStep, h, Bool.false_eq_true, if_false, hc]
  split <;> rfl

/-- The decode-failing file of the C9 witness. -/
def c9File : WalkFile := ⟨"data.py", "data.py", 10, false, none⟩

/-- C9 witness at the initial state and a concrete decode-failing file. -/
theorem c9_decode_fail_frame_witness :
    c9File.isBinary = false ∧ c9File.size ≤ 1000000 ∧ c9File.content = none ∧
    scanStep max_files_per_type initState c9File =
      { initState with
        stats := bump (bump initState.stats "total_files") (statKey (extOf c9File.name))
        file_data := fun p => if p = c9File.relPath then some (fileRecordOf c9File)
                              else initState.file_data p } :=
  ⟨rfl, by decide, rfl,
   c9_decode_fail_frame max_files_per_type initState c9File rfl (by decide) rfl⟩

/-! ## C10 -/

/-- A candidate requirement file other than `requirements.txt` never
changes the Python table, present or not. -/
theorem pythonManifestStep_other (py : List (String × Nat)) (name : String)
    (x : Option String) (h : name ≠ "requirements.txt") :
    pythonManifestStep py (name, x) = py := by
  cases x <;> simp [pythonManifestStep, h]

/-- C10: of the four candidate Python requirement files, only
`requirements.txt` ever contributes to the dependency result — the whole
`identify_dependencies` output is unchanged under arbitrary replacement
of the `Pipfile`, `pyproject.toml` and `setup.py` contents. -/
theorem c10_only_requirements_txt (m : RepoManifests) (a b c : Option String)
    (filePatterns : List (String × List SampledFile)) :
    identify_dependencies
        { m with pipfile := a, pyproject_toml := b, setup_py := c } filePatterns
      = identify_dependencies m filePatterns := by
  unfold identify_dependencies jsManifestSeed pythonManifestSeed
  simp only [List.foldl_cons, List.foldl_nil]
  rw [pythonManifestStep_other _ "Pipfile" _ (by decide),
      pythonManifestStep_other _ "Pipfile" _ (by decide),
      pythonManifestStep_other _ "pyproject.toml" _ (by decide),
      pythonManifestStep_other _ "pyproject.toml" _ (by decide),
      pythonManifestStep_other _ "setup.py" _ (by decide),
      pythonManifestStep_other _ "setup.py" _ (by decide)]
